import Mathlib

/-!
# Verification of the routing-and-supervision core

Shallow embedding of the routing core:
* `token-budget` (src/src/agents/token-budget.ts): budget status resolution and
  budget-aware candidate reordering;
* `smart-routing` (src/unnamed/part_003, first module): task classification and
  affinity-based candidate reordering;
* `quality-guard` (src/unnamed/part_003, second module): streaming quality
  supervision (stall, loop, repetition and final-length checks).

JavaScript numbers are modelled as `ℚ` (all comparisons in the source are exact
on the values that occur), timestamps (`Date.now()`) are explicit `ℚ`
parameters, optional values are `Option`, and thrown `FailoverError`s are
modelled as an `Option FailoverError` result component.
-/

set_option maxRecDepth 8000

namespace OpenClaw

/-- A provider/model pair (`ModelCandidate` in both modules). -/
structure ModelCandidate where
  provider : String
  model : String
  deriving DecidableEq, Repr

/-! ## Character-level helpers

The source relies on JavaScript string primitives (`toLowerCase`, `trim`,
`includes`). We model strings as their character lists, with an ASCII case
fold (the source data is ASCII) and the common JS whitespace characters. -/

/-- ASCII case fold, modelling `String.prototype.toLowerCase` on the
ASCII range (the only range exercised by the modelled data). -/
def lowerChar (c : Char) : Char :=
  if 'A' ≤ c ∧ c ≤ 'Z' then Char.ofNat (c.toNat + 32) else c

/-- JS whitespace (the characters recognised by `trim` and the regex class
`\s`; restricted to the common ones — exotic Unicode spaces are not
exercised by the modelled data). -/
def jsWS (c : Char) : Bool :=
  c = ' ' ∨ c = '\t' ∨ c = '\n' ∨ c = '\r' ∨ c = '\x0b' ∨ c = '\x0c' ∨
    c = ' ' ∨ c = '﻿'

/-- `String.prototype.trim` on a character list. -/
def jsTrim (l : List Char) : List Char :=
  ((l.dropWhile jsWS).reverse.dropWhile jsWS).reverse

/-- Lowercase a whole string (as a character list). -/
def lowerList (l : List Char) : List Char := l.map lowerChar

/-- Lowercase a `String`. -/
def lowerStr (s : String) : String := ⟨lowerList s.data⟩

/-! ## Token budget (`src/src/agents/token-budget.ts`) -/

/-- One usage window of the externally supplied usage snapshot
(`{ usedPercent: number, resetAt?: epoch-ms }`). -/
structure UsageWindow where
  usedPercent : ℚ
  resetAt : Option ℚ := none
  deriving DecidableEq, Repr

/-- Usage snapshot entry for one canonical provider id. -/
structure ProviderUsage where
  provider : String
  windows : List UsageWindow
  deriving DecidableEq, Repr

/-- The externally supplied usage snapshot (`UsageSummary`). -/
structure UsageSummary where
  providers : List ProviderUsage
  deriving DecidableEq, Repr

/-- Derived budget status (`BudgetStatus`). -/
structure BudgetStatus where
  provider : String
  usedPercent : ℚ
  isExhausted : Bool
  resetAt : Option ℚ := none
  deriving DecidableEq, Repr

/-- `EXHAUSTION_THRESHOLD = 90`. -/
def EXHAUSTION_THRESHOLD : ℚ := 90

/-- `DEPRIORITIZE_THRESHOLD = 75`. -/
def DEPRIORITIZE_THRESHOLD : ℚ := 75

/-- The fixed provider-name → usage-id mapping inside `mapToUsageProviderId`. -/
def usageProviderMapping : List (String × String) :=
  [("anthropic", "anthropic"),
   ("openai-codex", "openai-codex"),
   ("openai", "openai-codex"),
   ("google-antigravity", "google-antigravity"),
   ("google-gemini-cli", "google-gemini-cli"),
   ("google", "google-antigravity"),
   ("github-copilot", "github-copilot"),
   ("minimax", "minimax"),
   ("xiaomi", "xiaomi"),
   ("zai", "zai")]

/-- `mapToUsageProviderId`: lowercases and trims the provider name and looks it
up in the fixed mapping; `null` for unknown providers. -/
def mapToUsageProviderId (provider : String) : Option String :=
  let normalized : List Char := jsTrim (lowerList provider.data)
  (usageProviderMapping.find? (fun kv => kv.1.data = normalized)).map (·.2)

/-- The loop body of `getProviderBudget`'s most-restrictive-window scan:
`if (window.usedPercent > maxUsed) { maxUsed = ...; nearestReset = ...; }`. -/
def budgetStep (acc : ℚ × Option ℚ) (w : UsageWindow) : ℚ × Option ℚ :=
  if w.usedPercent > acc.1 then (w.usedPercent, w.resetAt) else acc

/-- `getProviderBudget`: budget status for one provider given an optional
usage snapshot. -/
def getProviderBudget (provider : String) (usageSummary : Option UsageSummary) :
    BudgetStatus :=
  let defaultStatus : BudgetStatus :=
    { provider := provider, usedPercent := 0, isExhausted := false }
  match usageSummary with
  | none => defaultStatus
  | some summary =>
    match mapToUsageProviderId provider with
    | none => defaultStatus
    | some usageId =>
      match summary.providers.find? (fun p => p.provider = usageId) with
      | none => defaultStatus
      | some snapshot =>
        if snapshot.windows = [] then defaultStatus
        else
          let m := snapshot.windows.foldl budgetStep (0, none)
          { provider := provider
            usedPercent := m.1
            isExhausted := m.1 ≥ EXHAUSTION_THRESHOLD
            resetAt := m.2 }

/-- The body of `filterByBudget`'s partition loop: push the candidate onto
`fresh`, `highUsage` or `exhausted` according to its budget status. -/
def budgetPush (summary : UsageSummary)
    (acc : List ModelCandidate × List ModelCandidate × List ModelCandidate)
    (candidate : ModelCandidate) :
    List ModelCandidate × List ModelCandidate × List ModelCandidate :=
  let budget := getProviderBudget candidate.provider (some summary)
  if budget.isExhausted then (acc.1, acc.2.1, acc.2.2 ++ [candidate])
  else if budget.usedPercent ≥ DEPRIORITIZE_THRESHOLD then
    (acc.1, acc.2.1 ++ [candidate], acc.2.2)
  else (acc.1 ++ [candidate], acc.2.1, acc.2.2)

/-- `filterByBudget`: reorder candidates into fresh / high-usage / exhausted
buckets (one pass pushing each candidate into exactly one bucket), returning
`fresh ++ highUsage ++ exhausted`; no-op without a snapshot or with fewer
than two candidates. -/
def filterByBudget (candidates : List ModelCandidate)
    (usageSummary : Option UsageSummary) : List ModelCandidate :=
  match usageSummary with
  | none => candidates
  | some summary =>
    if candidates.length ≤ 1 then candidates
    else
      let buckets := candidates.foldl (budgetPush summary) ([], [], [])
      buckets.1 ++ buckets.2.1 ++ buckets.2.2

/-- The bucket a candidate is pushed into by `filterByBudget`'s loop:
`0` = fresh, `1` = high-usage, `2` = exhausted. -/
def budgetBucket (c : ModelCandidate) (summary : UsageSummary) : ℕ :=
  let b := getProviderBudget c.provider (some summary)
  if b.isExhausted then 2
  else if b.usedPercent ≥ DEPRIORITIZE_THRESHOLD then 1
  else 0

/-! ## Budget lemmas -/

/-- The most-restrictive-window scan: the accumulator's percentage only grows,
bounds every scanned window, and the final pair is either the initial
accumulator (no window beat it) or comes from one of the windows. -/
theorem budgetFold_spec (ws : List UsageWindow) : ∀ (a : ℚ) (r : Option ℚ),
    (∀ w ∈ ws, w.usedPercent ≤ (ws.foldl budgetStep (a, r)).1) ∧
    a ≤ (ws.foldl budgetStep (a, r)).1 ∧
    (ws.foldl budgetStep (a, r) = (a, r) ∨
      (a < (ws.foldl budgetStep (a, r)).1 ∧
        ∃ w ∈ ws, (ws.foldl budgetStep (a, r)).1 = w.usedPercent ∧
          (ws.foldl budgetStep (a, r)).2 = w.resetAt)) := by
  induction ws with
  | nil => intro a r; refine ⟨by simp, le_refl a, Or.inl rfl⟩
  | cons w t ih =>
    intro a r
    by_cases h : w.usedPercent > a
    · have hstep : budgetStep (a, r) w = (w.usedPercent, w.resetAt) := by
        simp [budgetStep, h]
      have ih' := ih w.usedPercent w.resetAt
      constructor
      · intro x hx
        rcases List.mem_cons.mp hx with rfl | hxt
        · simpa [hstep] using ih'.2.1
        · simpa [hstep] using ih'.1 x hxt
      constructor
      · have := ih'.2.1
        simp only [List.foldl_cons, hstep]
        exact le_of_lt (lt_of_lt_of_le h this)
      · rcases ih'.2.2 with heq | ⟨hlt, x, hxmem, hx1, hx2⟩
        · refine Or.inr ⟨?_, w, List.mem_cons_self w t, ?_, ?_⟩ <;>
            simp [hstep, heq, h]
        · refine Or.inr ⟨?_, x, List.mem_cons_of_mem w hxmem, ?_, ?_⟩
          · simp only [List.foldl_cons, hstep]
            exact lt_trans h hlt
          · simpa [hstep] using hx1
          · simpa [hstep] using hx2
    · have hstep : budgetStep (a, r) w = (a, r) := by
        simp [budgetStep, h]
      have ih' := ih a r
      push_neg at h
      constructor
      · intro x hx
        rcases List.mem_cons.mp hx with rfl | hxt
        · simp only [List.foldl_cons, hstep]
          exact le_trans h ih'.2.1
        · simpa [hstep] using ih'.1 x hxt
      constructor
      · simpa [hstep] using ih'.2.1
      · rcases ih'.2.2 with heq | ⟨hlt, x, hxmem, hx1, hx2⟩
        · exact Or.inl (by simpa [hstep] using heq)
        · refine Or.inr ⟨by simpa [hstep] using hlt,
            x, List.mem_cons_of_mem w hxmem, by simpa [hstep] using hx1,
            by simpa [hstep] using hx2⟩

/-- In every budget status the resolver produces, the exhaustion flag agrees
with the 90 % threshold on the reported percentage. -/
theorem getProviderBudget_isExhausted_iff (p : String) (s : Option UsageSummary) :
    (getProviderBudget p s).isExhausted = true ↔
      EXHAUSTION_THRESHOLD ≤ (getProviderBudget p s).usedPercent := by
  unfold getProviderBudget
  split
  · simp [EXHAUSTION_THRESHOLD]
  · split
    · simp [EXHAUSTION_THRESHOLD]
    · split
      · simp [EXHAUSTION_THRESHOLD]
      · split
        · simp [EXHAUSTION_THRESHOLD]
        · simp [ge_iff_le, decide_eq_true_eq]

/-- C4 (amended). The budget resolver: fresh status whenever the snapshot is
absent, the provider is unmapped, unlisted, or has no windows; otherwise the
reported percentage is the highest among the provider's windows,
`isExhausted` holds iff that percentage is ≥ 90, and the reset time is that
of a window attaining the maximum when the maximum is positive, and absent
when the maximum is `0`. -/
theorem C4_budget_resolution :
    (∀ p, getProviderBudget p none =
      { provider := p, usedPercent := 0, isExhausted := false }) ∧
    (∀ p s, mapToUsageProviderId p = none → getProviderBudget p (some s) =
      { provider := p, usedPercent := 0, isExhausted := false }) ∧
    (∀ p s uid, mapToUsageProviderId p = some uid →
      s.providers.find? (fun q => q.provider = uid) = none →
      getProviderBudget p (some s) =
        { provider := p, usedPercent := 0, isExhausted := false }) ∧
    (∀ p s uid pu, mapToUsageProviderId p = some uid →
      s.providers.find? (fun q => q.provider = uid) = some pu →
      pu.windows = [] →
      getProviderBudget p (some s) =
        { provider := p, usedPercent := 0, isExhausted := false }) ∧
    (∀ p s uid pu, mapToUsageProviderId p = some uid →
      s.providers.find? (fun q => q.provider = uid) = some pu →
      pu.windows ≠ [] → (∀ w ∈ pu.windows, 0 ≤ w.usedPercent) →
      (∀ w ∈ pu.windows,
          w.usedPercent ≤ (getProviderBudget p (some s)).usedPercent) ∧
      (∃ w ∈ pu.windows,
          w.usedPercent = (getProviderBudget p (some s)).usedPercent) ∧
      ((getProviderBudget p (some s)).isExhausted = true ↔
          EXHAUSTION_THRESHOLD ≤ (getProviderBudget p (some s)).usedPercent) ∧
      (0 < (getProviderBudget p (some s)).usedPercent →
          ∃ w ∈ pu.windows,
            w.usedPercent = (getProviderBudget p (some s)).usedPercent ∧
            (getProviderBudget p (some s)).resetAt = w.resetAt) ∧
      ((getProviderBudget p (some s)).usedPercent = 0 →
          (getProviderBudget p (some s)).resetAt = none)) := by
  refine ⟨fun p => rfl, ?_, ?_, ?_, ?_⟩
  · intro p s hmap
    simp [getProviderBudget, hmap]
  · intro p s uid hmap hfind
    simp [getProviderBudget, hmap, hfind]
  · intro p s uid pu hmap hfind hnil
    simp [getProviderBudget, hmap, hfind, hnil]
  · intro p s uid pu hmap hfind hne hnn
    have hres : getProviderBudget p (some s) =
        { provider := p
          usedPercent := (pu.windows.foldl budgetStep (0, none)).1
          isExhausted :=
            decide ((pu.windows.foldl budgetStep (0, none)).1 ≥ EXHAUSTION_THRESHOLD)
          resetAt := (pu.windows.foldl budgetStep (0, none)).2 } := by
      simp [getProviderBudget, hmap, hfind, hne]
    have spec := budgetFold_spec pu.windows 0 none
    rw [hres]
    dsimp only
    refine ⟨spec.1, ?_, by simp [ge_iff_le], ?_, ?_⟩
    · rcases spec.2.2 with heq | ⟨_, w, hmem, h1, h2⟩
      · obtain ⟨w0, hw0⟩ := List.exists_mem_of_ne_nil pu.windows hne
        refine ⟨w0, hw0, le_antisymm (spec.1 w0 hw0) ?_⟩
        simpa [heq] using hnn w0 hw0
      · exact ⟨w, hmem, h1.symm⟩
    · intro hpos
      rcases spec.2.2 with heq | ⟨_, w, hmem, h1, h2⟩
      · rw [heq] at hpos; exact absurd hpos (by norm_num)
      · exact ⟨w, hmem, h1.symm, h2⟩
    · intro hzero
      rcases spec.2.2 with heq | ⟨hlt, w, hmem, h1, h2⟩
      · rw [heq]
      · rw [hzero] at hlt; exact absurd hlt (by norm_num)

/-- C4 witness: a provider with windows `[30, 95]` is reported at 95 % and
exhausted (worst-window policy), via the main conjunct of
`C4_budget_resolution`. -/
theorem C4_budget_resolution_witness :
    ∃ w ∈ ([⟨30, none⟩, ⟨95, some 7⟩] : List UsageWindow),
      w.usedPercent =
        (getProviderBudget "anthropic"
          (some ⟨[⟨"anthropic", [⟨30, none⟩, ⟨95, some 7⟩]⟩]⟩)).usedPercent :=
  (C4_budget_resolution.2.2.2.2 "anthropic"
    ⟨[⟨"anthropic", [⟨30, none⟩, ⟨95, some 7⟩]⟩]⟩ "anthropic"
    ⟨"anthropic", [⟨30, none⟩, ⟨95, some 7⟩]⟩
    (by decide) (by decide) (by decide) (by decide)).2.1

/-- C4 counterexample: for provider `anthropic` with the single usage window
`{usedPercent := 0, resetAt := some 123}`, the claim as stated demands the
returned reset time be that window's (`some 123`), but the resolver returns
`none` (the strict `>` scan never records a window when the maximum is 0). -/
theorem C4_counterexample :
    (getProviderBudget "anthropic"
        (some ⟨[⟨"anthropic", [⟨0, some 123⟩]⟩]⟩)).resetAt = none ∧
    (getProviderBudget "anthropic"
        (some ⟨[⟨"anthropic", [⟨0, some 123⟩]⟩]⟩)).usedPercent = 0 ∧
    ∀ w ∈ ([⟨0, some 123⟩] : List UsageWindow), w.resetAt = some 123 := by
  refine ⟨by decide, by decide, by decide⟩

/-- `budgetBucket` only takes the values 0, 1, 2. -/
theorem budgetBucket_le_two (c : ModelCandidate) (s : UsageSummary) :
    budgetBucket c s ≤ 2 := by
  unfold budgetBucket
  dsimp only
  split_ifs <;> norm_num

/-- The partition loop of `filterByBudget` appends, to each accumulator, the
candidates of its bucket in input order. -/
theorem budgetPush_foldl (s : UsageSummary) (cs : List ModelCandidate) :
    ∀ f h e, cs.foldl (budgetPush s) (f, h, e) =
      (f ++ cs.filter (fun c => budgetBucket c s = 0),
       h ++ cs.filter (fun c => budgetBucket c s = 1),
       e ++ cs.filter (fun c => budgetBucket c s = 2)) := by
  induction cs with
  | nil => intro f h e; simp
  | cons c t ih =>
    intro f h e
    by_cases hex : (getProviderBudget c.provider (some s)).isExhausted = true
    · have hb : budgetBucket c s = 2 := by simp [budgetBucket, hex]
      simp only [List.foldl_cons, budgetPush, hex, if_true, ih,
        List.filter_cons, hb]
      simp
    · by_cases hge :
        (getProviderBudget c.provider (some s)).usedPercent ≥ DEPRIORITIZE_THRESHOLD
      · have hb : budgetBucket c s = 1 := by simp [budgetBucket, hex, hge]
        simp only [List.foldl_cons, budgetPush, hex, hge, if_true, if_false, ih,
          List.filter_cons, hb]
        simp
      · have hb : budgetBucket c s = 0 := by simp [budgetBucket, hex, hge]
        simp only [List.foldl_cons, budgetPush, hex, hge, if_false, ih,
          List.filter_cons, hb]
        simp

/-- Splitting a list into three buckets by a three-valued function and
concatenating the buckets is a permutation of the list. -/
theorem filter_three_perm {α : Type} (f : α → ℕ) (l : List α)
    (hf : ∀ x ∈ l, f x ≤ 2) :
    (l.filter (fun x => f x = 0) ++ l.filter (fun x => f x = 1) ++
      l.filter (fun x => f x = 2)).Perm l := by
  induction l with
  | nil => simp
  | cons a t ih =>
    have ih' := ih (fun x hx => hf x (List.mem_cons_of_mem a hx))
    have ihr : (t.filter (fun x => f x = 0) ++ (t.filter (fun x => f x = 1) ++
        t.filter (fun x => f x = 2))).Perm t := by
      simpa [List.append_assoc] using ih'
    have ha : f a = 0 ∨ f a = 1 ∨ f a = 2 := by
      have := hf a (List.mem_cons_self a t); omega
    rcases ha with ha | ha | ha
    · have h0 : (a :: t).filter (fun x => f x = 0) =
          a :: t.filter (fun x => f x = 0) := by simp [List.filter_cons, ha]
      have h1 : (a :: t).filter (fun x => f x = 1) =
          t.filter (fun x => f x = 1) := by simp [List.filter_cons, ha]
      have h2 : (a :: t).filter (fun x => f x = 2) =
          t.filter (fun x => f x = 2) := by simp [List.filter_cons, ha]
      rw [h0, h1, h2]
      exact ih'.cons a
    · have h0 : (a :: t).filter (fun x => f x = 0) =
          t.filter (fun x => f x = 0) := by simp [List.filter_cons, ha]
      have h1 : (a :: t).filter (fun x => f x = 1) =
          a :: t.filter (fun x => f x = 1) := by simp [List.filter_cons, ha]
      have h2 : (a :: t).filter (fun x => f x = 2) =
          t.filter (fun x => f x = 2) := by simp [List.filter_cons, ha]
      rw [h0, h1, h2, List.append_assoc]
      exact List.Perm.trans List.perm_middle (ihr.cons a)
    · have h0 : (a :: t).filter (fun x => f x = 0) =
          t.filter (fun x => f x = 0) := by simp [List.filter_cons, ha]
      have h1 : (a :: t).filter (fun x => f x = 1) =
          t.filter (fun x => f x = 1) := by simp [List.filter_cons, ha]
      have h2 : (a :: t).filter (fun x => f x = 2) =
          a :: t.filter (fun x => f x = 2) := by simp [List.filter_cons, ha]
      rw [h0, h1, h2, List.append_assoc]
      refine List.Perm.trans
        (List.Perm.append_left (t.filter (fun x => f x = 0)) List.perm_middle) ?_
      exact List.Perm.trans List.perm_middle (ihr.cons a)

/-- C5. `filterByBudget` is a no-op without a snapshot or with fewer than two
candidates; otherwise it returns the fresh, high-usage and exhausted buckets
concatenated, each bucket keeping input order; `usedPercent < 75` is fresh,
`= 75` is high-usage and `= 90` is exhausted. -/
theorem C5_filter_by_budget :
    (∀ cs, filterByBudget cs none = cs) ∧
    (∀ cs s, cs.length ≤ 1 → filterByBudget cs (some s) = cs) ∧
    (∀ cs s, 2 ≤ cs.length → filterByBudget cs (some s) =
      cs.filter (fun c => budgetBucket c s = 0) ++
      cs.filter (fun c => budgetBucket c s = 1) ++
      cs.filter (fun c => budgetBucket c s = 2)) ∧
    (∀ c s, budgetBucket c s =
      if EXHAUSTION_THRESHOLD ≤ (getProviderBudget c.provider (some s)).usedPercent
        then 2
      else if DEPRIORITIZE_THRESHOLD ≤
          (getProviderBudget c.provider (some s)).usedPercent then 1
      else 0) ∧
    (∀ c s, (getProviderBudget c.provider (some s)).usedPercent <
        DEPRIORITIZE_THRESHOLD → budgetBucket c s = 0) ∧
    (∀ c s, (getProviderBudget c.provider (some s)).usedPercent =
        DEPRIORITIZE_THRESHOLD → budgetBucket c s = 1) ∧
    (∀ c s, (getProviderBudget c.provider (some s)).usedPercent =
        EXHAUSTION_THRESHOLD → budgetBucket c s = 2) := by
  refine ⟨fun cs => rfl, ?_, ?_, ?_, ?_, ?_, ?_⟩
  · intro cs s hlen
    simp [filterByBudget, hlen]
  · intro cs s hlen
    have hlen' : ¬ cs.length ≤ 1 := by omega
    simp only [filterByBudget, hlen', if_false]
    rw [budgetPush_foldl]
    simp
  · intro c s
    have hiff := getProviderBudget_isExhausted_iff c.provider (some s)
    unfold budgetBucket
    dsimp only
    by_cases h : EXHAUSTION_THRESHOLD ≤
        (getProviderBudget c.provider (some s)).usedPercent
    · rw [if_pos h]
      simp [hiff.mpr h]
    · rw [if_neg h]
      have hex : (getProviderBudget c.provider (some s)).isExhausted = false := by
        rcases Bool.eq_false_or_eq_true
          (getProviderBudget c.provider (some s)).isExhausted with hb | hb
        · exact absurd (hiff.mp hb) h
        · exact hb
      simp [hex, ge_iff_le]
  · intro c s hu
    have hex : (getProviderBudget c.provider (some s)).isExhausted = false := by
      rcases Bool.eq_false_or_eq_true (getProviderBudget c.provider (some s)).isExhausted
        with hb | hb
      · have := (getProviderBudget_isExhausted_iff c.provider (some s)).mp hb
        have hlt : EXHAUSTION_THRESHOLD < EXHAUSTION_THRESHOLD :=
          lt_of_le_of_lt this (lt_trans hu
            (by norm_num [DEPRIORITIZE_THRESHOLD, EXHAUSTION_THRESHOLD]))
        exact absurd hlt (lt_irrefl _)
      · exact hb
    simp [budgetBucket, hex, not_le.mpr hu]
  · intro c s hu
    have hex : (getProviderBudget c.provider (some s)).isExhausted = false := by
      rcases Bool.eq_false_or_eq_true (getProviderBudget c.provider (some s)).isExhausted
        with hb | hb
      · have := (getProviderBudget_isExhausted_iff c.provider (some s)).mp hb
        rw [hu] at this
        exact absurd this (by norm_num [DEPRIORITIZE_THRESHOLD, EXHAUSTION_THRESHOLD])
      · exact hb
    simp [budgetBucket, hex, hu, DEPRIORITIZE_THRESHOLD]
  · intro c s hu
    have hex : (getProviderBudget c.provider (some s)).isExhausted = true :=
      (getProviderBudget_isExhausted_iff c.provider (some s)).mpr (le_of_eq hu.symm)
    simp [budgetBucket, hex]

/-- C5 witness: concrete instances of the no-op, partition and boundary
conjuncts of `C5_filter_by_budget`. -/
theorem C5_filter_by_budget_witness :
    filterByBudget [⟨"a", "m"⟩] (some ⟨[]⟩) = [⟨"a", "m"⟩] ∧
    budgetBucket ⟨"anthropic", "m"⟩ ⟨[⟨"anthropic", [⟨75, none⟩]⟩]⟩ = 1 ∧
    budgetBucket ⟨"anthropic", "m"⟩ ⟨[⟨"anthropic", [⟨90, none⟩]⟩]⟩ = 2 ∧
    filterByBudget [⟨"anthropic", "x"⟩, ⟨"ollama", "y"⟩]
        (some ⟨[⟨"anthropic", [⟨95, none⟩]⟩]⟩) =
      [⟨"ollama", "y"⟩, ⟨"anthropic", "x"⟩] :=
  ⟨C5_filter_by_budget.2.1 [⟨"a", "m"⟩] ⟨[]⟩ (by decide),
   C5_filter_by_budget.2.2.2.2.2.1 ⟨"anthropic", "m"⟩
     ⟨[⟨"anthropic", [⟨75, none⟩]⟩]⟩ (by decide),
   C5_filter_by_budget.2.2.2.2.2.2 ⟨"anthropic", "m"⟩
     ⟨[⟨"anthropic", [⟨90, none⟩]⟩]⟩ (by decide),
   by
     rw [C5_filter_by_budget.2.2.1 _ _ (by decide)]
     decide⟩

/-! ## Quality guard (`src/unnamed/part_003`, second module)

`Date.now()` is modelled by explicit `now : ℚ` parameters; a thrown
`FailoverError` is modelled as a `some` error result (the human-readable
message string of the source error is not modelled, only its reason code and
provider/model context). -/

/-- Failover reason codes (`FailoverError` reasons). -/
inductive FailoverReason where
  | timeout
  | context_overflow
  | rate_limit
  | auth
  | unknown
  deriving DecidableEq, Repr

/-- Optional provider/model context threaded through the guard checks. -/
structure FailoverContext where
  provider : Option String := none
  model : Option String := none
  deriving DecidableEq, Repr

/-- The failover signal (`FailoverError` without its message text). -/
structure FailoverError where
  reason : FailoverReason
  provider : Option String := none
  model : Option String := none
  deriving DecidableEq, Repr

/-- Caller-supplied `QualityGuardConfig`: every field optional. -/
structure QualityGuardConfig where
  enabled : Option Bool := none
  minResponseChars : Option ℕ := none
  stallTimeoutSeconds : Option ℚ := none
  loopThreshold : Option ℕ := none
  loopMinChunkLength : Option ℕ := none
  deriving DecidableEq, Repr

/-- `Required<QualityGuardConfig>` after merging with `DEFAULT_CONFIG`. -/
structure ResolvedQualityGuardConfig where
  enabled : Bool
  minResponseChars : ℕ
  stallTimeoutSeconds : ℚ
  loopThreshold : ℕ
  loopMinChunkLength : ℕ
  deriving DecidableEq, Repr

/-- `{ ...DEFAULT_CONFIG, ...config }` (defaults: enabled, 10 chars, 30 s
stall, loop threshold 3, loop minimum chunk length 20). -/
def resolveQualityGuardConfig (config : QualityGuardConfig) :
    ResolvedQualityGuardConfig :=
  { enabled := config.enabled.getD true
    minResponseChars := config.minResponseChars.getD 10
    stallTimeoutSeconds := config.stallTimeoutSeconds.getD 30
    loopThreshold := config.loopThreshold.getD 3
    loopMinChunkLength := config.loopMinChunkLength.getD 20 }

/-- `QualityGuardState`. -/
structure QualityGuardState where
  chunks : List String
  totalChars : ℕ
  firstChunkAt : Option ℚ
  startedAt : ℚ
  deriving DecidableEq, Repr

/-- `createQualityGuardState` (the `Date.now()` of creation time is the
explicit `now`). -/
def createQualityGuardState (now : ℚ) : QualityGuardState :=
  { chunks := [], totalChars := 0, firstChunkAt := none, startedAt := now }

/-- `chunk.trim().toLowerCase()` on the character list. -/
def normalizeChunk (s : String) : List Char := lowerList (jsTrim s.data)

/-- JS `Array.prototype.slice(-k)` (the last `k` elements; the whole list
when `k = 0`, since `slice(-0)` is `slice(0)`). -/
def sliceLast {α : Type} (l : List α) (k : ℕ) : List α :=
  if k = 0 then l else l.drop (l.length - k)

/-- Length of the maximal run of entries at the head of a (reversed) chunk
list whose normalization equals `norm`. -/
def revRun (norm : List Char) : List String → ℕ
  | [] => 0
  | x :: xs => if normalizeChunk x = norm then revRun norm xs + 1 else 0

/-- Length of the maximal trailing run of chunks normalizing to `norm`
(the backward walk of `checkForLooping`). -/
def trailingRun (norm : List Char) (l : List String) : ℕ := revRun norm l.reverse

/-- The `indexOf`/`pos += windowSize` occurrence counter of
`detectRepetitionRatio`.  The fuel argument makes the recursion structural;
`fuel = t.length + 1` fully evaluates the source loop whenever `w ≥ 1`
(always the case at its single call site, where `w ≥ 25`). -/
def countOccAux (seg : List Char) (w : ℕ) : ℕ → List Char → ℕ
  | 0, _ => 0
  | fuel + 1, t =>
    if seg.isPrefixOf t then 1 + countOccAux seg w fuel (t.drop w)
    else
      match t with
      | [] => 0
      | _ :: rest => countOccAux seg w fuel rest

/-- `detectRepetitionRatio`: fraction of the text covered by non-overlapping
occurrences of its leading segment. -/
def detectRepetitionRatio (text : String) : ℚ :=
  if text.length < 100 then 0
  else
    let windowSize := min 100 (text.length / 4)
    let segment := text.data.take windowSize
    let occurrences := countOccAux segment windowSize (text.data.length + 1) text.data
    if occurrences ≤ 1 then 0
    else ((occurrences * windowSize : ℕ) : ℚ) / (text.length : ℚ)

/-- `checkForLooping` (called by `checkStreamingChunk` after the chunk has
been pushed): consecutive-repeat detection over the recent window, then the
accumulated-text repetition-ratio check. -/
def checkForLooping (state : QualityGuardState) (currentChunk : String)
    (cfg : ResolvedQualityGuardConfig) (context : FailoverContext) :
    Option FailoverError :=
  let recentChunks := sliceLast state.chunks (cfg.loopThreshold * 2)
  if recentChunks.length < cfg.loopThreshold then none
  else
    let normalized := normalizeChunk currentChunk
    let repeatCount := min (trailingRun normalized recentChunks.dropLast)
      cfg.loopThreshold
    if repeatCount ≥ cfg.loopThreshold - 1 then
      some { reason := .unknown, provider := context.provider,
             model := context.model }
    else if state.totalChars > 500 then
      if detectRepetitionRatio (String.join state.chunks) > 0.6 then
        some { reason := .unknown, provider := context.provider,
               model := context.model }
      else none
    else none

/-- `checkStreamingChunk`: record first-chunk timing, push the chunk, update
the character total, then run loop detection for long-enough chunks. -/
def checkStreamingChunk (state : QualityGuardState) (chunk : String)
    (config : QualityGuardConfig) (now : ℚ) (context : FailoverContext) :
    QualityGuardState × Option FailoverError :=
  let cfg := resolveQualityGuardConfig config
  if cfg.enabled = false then (state, none)
  else
    let state1 :=
      if state.firstChunkAt = none ∧ chunk.length > 0 then
        { state with firstChunkAt := some now }
      else state
    let state2 :=
      { state1 with
        chunks := state1.chunks ++ [chunk]
        totalChars := state1.totalChars + chunk.length }
    if chunk.length ≥ cfg.loopMinChunkLength then
      (state2, checkForLooping state2 chunk cfg context)
    else (state2, none)

/-- `checkForStall`: raise `timeout` when nothing has arrived within the
stall window. -/
def checkForStall (state : QualityGuardState) (config : QualityGuardConfig)
    (now : ℚ) (context : FailoverContext) : Option FailoverError :=
  let cfg := resolveQualityGuardConfig config
  if cfg.enabled = false then none
  else
    let elapsed : ℚ := (now - state.startedAt) / 1000
    if elapsed > cfg.stallTimeoutSeconds ∧ state.firstChunkAt = none then
      some { reason := .timeout, provider := context.provider,
             model := context.model }
    else none

/-- `checkFinalResponse`: raise `unknown` when the accumulated output is
shorter than the configured minimum. -/
def checkFinalResponse (state : QualityGuardState)
    (config : QualityGuardConfig) (context : FailoverContext) :
    Option FailoverError :=
  let cfg := resolveQualityGuardConfig config
  if cfg.enabled = false then none
  else if state.totalChars < cfg.minResponseChars then
    some { reason := .unknown, provider := context.provider,
           model := context.model }
  else none

/-! ### Supervisor operation sequences -/

/-- One supervisor call on a quality-guard state. -/
inductive GuardOp where
  | ingest (chunk : String) (config : QualityGuardConfig) (now : ℚ)
      (context : FailoverContext)
  | stall (config : QualityGuardConfig) (now : ℚ) (context : FailoverContext)
  | finalize (config : QualityGuardConfig) (context : FailoverContext)

/-- Apply one supervisor operation (only ingest mutates the state). -/
def applyGuardOp (s : QualityGuardState) :
    GuardOp → QualityGuardState × Option FailoverError
  | .ingest c cfg now ctx => checkStreamingChunk s c cfg now ctx
  | .stall cfg now ctx => (s, checkForStall s cfg now ctx)
  | .finalize cfg ctx => (s, checkFinalResponse s cfg ctx)

/-- Run a sequence of supervisor operations, threading the state through
(also past operations that raise a failover signal). -/
def runGuardOps (s : QualityGuardState) : List GuardOp → QualityGuardState
  | [] => s
  | op :: ops => runGuardOps (applyGuardOp s op).1 ops

/-- The chunks a sequence of operations ingests into the state (chunks fed
to an enabled `checkStreamingChunk`; a disabled ingest does not touch the
state). -/
def ingestedChunks (ops : List GuardOp) : List String :=
  ops.filterMap fun op =>
    match op with
    | .ingest c cfg _ _ =>
      if (resolveQualityGuardConfig cfg).enabled then some c else none
    | _ => none

/-- Feed chunks one by one, stopping at the first raised failover signal
(a throw aborts the caller's streaming loop). -/
def ingestAll (cfg : QualityGuardConfig) (now : ℚ) (ctx : FailoverContext) :
    QualityGuardState → List String → QualityGuardState × Option FailoverError
  | s, [] => (s, none)
  | s, c :: cs =>
    match checkStreamingChunk s c cfg now ctx with
    | (s', some e) => (s', some e)
    | (s', none) => ingestAll cfg now ctx s' cs

/-! ### Quality-guard lemmas -/

/-- The state returned by `checkStreamingChunk`: the chunk is appended and
counted when the guard is enabled, nothing changes when it is disabled, and
`firstChunkAt` is set on the first non-empty chunk. -/
theorem checkStreamingChunk_fst (s : QualityGuardState) (chunk : String)
    (config : QualityGuardConfig) (now : ℚ) (ctx : FailoverContext) :
    (checkStreamingChunk s chunk config now ctx).1 =
      if (resolveQualityGuardConfig config).enabled = false then s
      else
        { chunks := s.chunks ++ [chunk]
          totalChars := s.totalChars + chunk.length
          firstChunkAt :=
            if s.firstChunkAt = none ∧ chunk.length > 0 then some now
            else s.firstChunkAt
          startedAt := s.startedAt } := by
  unfold checkStreamingChunk
  dsimp only
  split_ifs <;> rfl

/-- `checkForLooping` only reads the chunk list and character total of its
state argument. -/
theorem checkForLooping_congr (s₁ s₂ : QualityGuardState) (chunk : String)
    (cfg : ResolvedQualityGuardConfig) (ctx : FailoverContext)
    (hc : s₁.chunks = s₂.chunks) (ht : s₁.totalChars = s₂.totalChars) :
    checkForLooping s₁ chunk cfg ctx = checkForLooping s₂ chunk cfg ctx := by
  unfold checkForLooping
  rw [hc, ht]

/-- The error component of an enabled ingest of a long-enough chunk is the
loop check on the post-push state. -/
theorem checkStreamingChunk_snd (s : QualityGuardState) (chunk : String)
    (config : QualityGuardConfig) (now : ℚ) (ctx : FailoverContext)
    (hen : (resolveQualityGuardConfig config).enabled = true)
    (hlen : chunk.length ≥ (resolveQualityGuardConfig config).loopMinChunkLength) :
    (checkStreamingChunk s chunk config now ctx).2 =
      checkForLooping
        { chunks := s.chunks ++ [chunk]
          totalChars := s.totalChars + chunk.length
          firstChunkAt := s.firstChunkAt
          startedAt := s.startedAt } chunk (resolveQualityGuardConfig config)
        ctx := by
  unfold checkStreamingChunk
  dsimp only
  rw [hen]
  simp only [Bool.true_eq_false, if_false, hlen, if_true, ge_iff_le]
  split_ifs with h1
  · exact checkForLooping_congr _ _ _ _ _ rfl rfl
  · exact checkForLooping_congr _ _ _ _ _ rfl rfl

/-- An enabled ingest never clears `firstChunkAt`, and sets it on a
non-empty chunk. -/
theorem checkStreamingChunk_firstChunkAt (s : QualityGuardState)
    (chunk : String) (config : QualityGuardConfig) (now : ℚ)
    (ctx : FailoverContext) :
    ((checkStreamingChunk s chunk config now ctx).1).firstChunkAt =
      if (resolveQualityGuardConfig config).enabled = true ∧
          s.firstChunkAt = none ∧ chunk.length > 0 then some now
      else s.firstChunkAt := by
  rw [checkStreamingChunk_fst]
  rcases Bool.eq_false_or_eq_true (resolveQualityGuardConfig config).enabled
    with hb | hb <;> simp [hb]

/-- C9. With the enable flag set to `false`, every supervisor operation is a
no-op: no failover signal is raised and the state is returned unchanged. -/
theorem C9_disabled_noop (s : QualityGuardState) (chunk : String)
    (config : QualityGuardConfig) (now : ℚ) (ctx : FailoverContext)
    (hdis : config.enabled = some false) :
    checkStreamingChunk s chunk config now ctx = (s, none) ∧
    checkForStall s config now ctx = none ∧
    checkFinalResponse s config ctx = none := by
  have h : (resolveQualityGuardConfig config).enabled = false := by
    simp [resolveQualityGuardConfig, hdis]
  refine ⟨?_, ?_, ?_⟩
  · unfold checkStreamingChunk
    simp [h]
  · unfold checkForStall
    simp [h]
  · unfold checkFinalResponse
    simp [h]

/-- C9 witness: a disabled supervisor ignores a concrete chunk, stall check
and final check. -/
theorem C9_disabled_noop_witness :
    checkStreamingChunk (createQualityGuardState 0) "some chunk text"
        { enabled := some false } 99999 {} =
      (createQualityGuardState 0, none) ∧
    checkForStall (createQualityGuardState 0) { enabled := some false }
        99999 {} = none ∧
    checkFinalResponse (createQualityGuardState 0) { enabled := some false }
        {} = none :=
  C9_disabled_noop (createQualityGuardState 0) "some chunk text"
    { enabled := some false } 99999 {} rfl

/-- Running a sequence of supervisor operations appends exactly the enabled
ingests' chunks and adds exactly their lengths. -/
theorem runGuardOps_spec (ops : List GuardOp) : ∀ s : QualityGuardState,
    (runGuardOps s ops).chunks = s.chunks ++ ingestedChunks ops ∧
    (runGuardOps s ops).totalChars =
      s.totalChars + ((ingestedChunks ops).map String.length).sum := by
  induction ops with
  | nil => intro s; simp [runGuardOps, ingestedChunks]
  | cons op ops ih =>
    intro s
    cases op with
    | ingest c cfg now ctx =>
      have hstep := checkStreamingChunk_fst s c cfg now ctx
      rcases Bool.eq_false_or_eq_true (resolveQualityGuardConfig cfg).enabled
        with hb | hb
      case inr =>
        have h1 : (applyGuardOp s (GuardOp.ingest c cfg now ctx)).1 = s := by
          simp [applyGuardOp, hstep, hb]
        have h2 : ingestedChunks (GuardOp.ingest c cfg now ctx :: ops) =
            ingestedChunks ops := by
          simp [ingestedChunks, hb]
        rw [runGuardOps, h1, h2]
        exact ih s
      case inl =>
        have h1 : (applyGuardOp s (GuardOp.ingest c cfg now ctx)).1 =
            { chunks := s.chunks ++ [c]
              totalChars := s.totalChars + c.length
              firstChunkAt :=
                if s.firstChunkAt = none ∧ c.length > 0 then some now
                else s.firstChunkAt
              startedAt := s.startedAt } := by
          simp only [applyGuardOp, hstep, hb, Bool.true_eq_false, if_false]
        have h2 : ingestedChunks (GuardOp.ingest c cfg now ctx :: ops) =
            c :: ingestedChunks ops := by
          simp [ingestedChunks, hb]
        rw [runGuardOps, h1, h2]
        have ih' := ih
          { chunks := s.chunks ++ [c]
            totalChars := s.totalChars + c.length
            firstChunkAt :=
              if s.firstChunkAt = none ∧ c.length > 0 then some now
              else s.firstChunkAt
            startedAt := s.startedAt }
        constructor
        · rw [ih'.1]; simp
        · rw [ih'.2]; simp; omega
    | stall cfg now ctx =>
      have h2 : ingestedChunks (GuardOp.stall cfg now ctx :: ops) =
          ingestedChunks ops := by simp [ingestedChunks]
      rw [runGuardOps, h2]
      exact ih s
    | finalize cfg ctx =>
      have h2 : ingestedChunks (GuardOp.finalize cfg ctx :: ops) =
          ingestedChunks ops := by simp [ingestedChunks]
      rw [runGuardOps, h2]
      exact ih s

/-- C10. For every state created by `createQualityGuardState` and every
sequence of supervisor operations on it (signal-raising ones included),
`totalChars` equals the sum of the lengths of all chunks ever ingested into
that state — and the state's chunk list is exactly those chunks. -/
theorem C10_totalChars_invariant (now0 : ℚ) (ops : List GuardOp) :
    (runGuardOps (createQualityGuardState now0) ops).totalChars =
      ((ingestedChunks ops).map String.length).sum ∧
    (runGuardOps (createQualityGuardState now0) ops).chunks =
      ingestedChunks ops := by
  have h := runGuardOps_spec ops (createQualityGuardState now0)
  refine ⟨?_, ?_⟩
  · rw [h.2]; simp [createQualityGuardState]
  · rw [h.1]; simp [createQualityGuardState]

/-- C6 (amended). With the guard enabled, `checkForStall` raises iff no
*non-empty* chunk has ever been received (`firstChunkAt` unset) and the
elapsed seconds since attempt start exceed the stall timeout; every raised
stall signal has reason `timeout`; an enabled ingest of a non-empty chunk
sets `firstChunkAt`, no ingest ever clears it, and once it is set the stall
check can never fire again. -/
theorem C6_stall_only_before_first_nonempty_chunk :
    (∀ s config now ctx, (resolveQualityGuardConfig config).enabled = true →
      ((∃ e, checkForStall s config now ctx = some e) ↔
        ((now - s.startedAt) / 1000 >
            (resolveQualityGuardConfig config).stallTimeoutSeconds ∧
          s.firstChunkAt = none))) ∧
    (∀ s config now ctx e, checkForStall s config now ctx = some e →
      e.reason = FailoverReason.timeout) ∧
    (∀ s chunk config now ctx,
      (resolveQualityGuardConfig config).enabled = true → chunk ≠ "" →
      ((checkStreamingChunk s chunk config now ctx).1).firstChunkAt ≠ none) ∧
    (∀ s chunk config now ctx, s.firstChunkAt ≠ none →
      ((checkStreamingChunk s chunk config now ctx).1).firstChunkAt ≠ none) ∧
    (∀ s config now ctx, s.firstChunkAt ≠ none →
      checkForStall s config now ctx = none) := by
  refine ⟨?_, ?_, ?_, ?_, ?_⟩
  · intro s config now ctx hen
    unfold checkForStall
    dsimp only
    simp only [hen, Bool.true_eq_false, if_false]
    constructor
    · rintro ⟨e, he⟩
      by_cases hc : (now - s.startedAt) / 1000 >
          (resolveQualityGuardConfig config).stallTimeoutSeconds ∧
          s.firstChunkAt = none
      · exact hc
      · rw [if_neg hc] at he
        exact absurd he (by simp)
    · intro hc
      exact ⟨_, if_pos hc⟩
  · intro s config now ctx e he
    unfold checkForStall at he
    dsimp only at he
    split_ifs at he with h1 h2
    simp at he
    rw [← he]
  · intro s chunk config now ctx hen hne
    have hlen : 0 < chunk.length := by
      by_contra h
      push_neg at h
      have h0 : chunk.length = 0 := by omega
      have hdata : chunk.data = [] := List.length_eq_zero.mp h0
      exact hne (by cases chunk; simp_all)
    rw [checkStreamingChunk_firstChunkAt]
    by_cases hf : s.firstChunkAt = none
    · rw [if_pos ⟨hen, hf, hlen⟩]
      simp
    · rw [if_neg (by tauto)]
      exact hf
  · intro s chunk config now ctx hf
    rw [checkStreamingChunk_firstChunkAt]
    rw [if_neg (by tauto)]
    exact hf
  · intro s config now ctx hf
    unfold checkForStall
    dsimp only
    split_ifs with h1 h2
    · rfl
    · exact absurd h2.2 hf
    · rfl

/-- C6 witness: with the default configuration, a state whose first non-empty
chunk has been seen never stalls at 35 s, while a fresh state with no chunk
stalls at 35 s. -/
theorem C6_stall_witness :
    checkForStall
      { chunks := ["hi"], totalChars := 2, firstChunkAt := some 1,
        startedAt := 0 } {} 35000 {} = none ∧
    (∃ e, checkForStall
      { chunks := [], totalChars := 0, firstChunkAt := none,
        startedAt := 0 } {} 35000 {} = some e) :=
  ⟨C6_stall_only_before_first_nonempty_chunk.2.2.2.2
    { chunks := ["hi"], totalChars := 2, firstChunkAt := some 1,
      startedAt := 0 } {} 35000 {} (by simp),
   (C6_stall_only_before_first_nonempty_chunk.1
    { chunks := [], totalChars := 0, firstChunkAt := none, startedAt := 0 }
    {} 35000 {} rfl).mpr
    (by constructor
        · norm_num [resolveQualityGuardConfig]
        · rfl)⟩

/-- C6 counterexample: the *empty* chunk is ingested into the state (it is
appended to `chunks`) without raising, yet a later stall check still fires —
contradicting "once any chunk has arrived (been ingested into the state),
stall can never fire again". -/
theorem C6_counterexample :
    (checkStreamingChunk (createQualityGuardState 0) "" {} 0 {}).2 = none ∧
    (checkStreamingChunk (createQualityGuardState 0) "" {} 0 {}).1.chunks =
      [""] ∧
    checkForStall (checkStreamingChunk (createQualityGuardState 0) "" {} 0 {}).1
      {} 35000 {} = some { reason := FailoverReason.timeout } := by
  have hstate : (checkStreamingChunk (createQualityGuardState 0) "" {} 0 {}).1 =
      { chunks := [""], totalChars := 0, firstChunkAt := none,
        startedAt := 0 } := by decide
  refine ⟨by decide, by decide, ?_⟩
  rw [hstate]
  unfold checkForStall
  dsimp only
  rw [if_neg (by decide), if_pos ?_]
  constructor
  · norm_num [resolveQualityGuardConfig]
  · rfl

/-- A run of equal (normalized) chunks is no longer than the list. -/
theorem revRun_le_length (norm : List Char) (l : List String) :
    revRun norm l ≤ l.length := by
  induction l with
  | nil => simp [revRun]
  | cons x xs ih =>
    unfold revRun
    split_ifs
    · have := ih
      simp only [List.length_cons]
      omega
    · simp

/-- Taking a prefix truncates the run. -/
theorem revRun_take (norm : List Char) (l : List String) :
    ∀ k, revRun norm (l.take k) = min (revRun norm l) k := by
  induction l with
  | nil => intro k; simp [revRun]
  | cons x xs ih =>
    intro k
    cases k with
    | zero => simp [revRun]
    | succ k =>
      rw [List.take_succ_cons]
      unfold revRun
      split_ifs with h
      · rw [ih k, Nat.succ_min_succ]
      · simp

/-- The trailing run is no longer than the list. -/
theorem trailingRun_le_length (norm : List Char) (l : List String) :
    trailingRun norm l ≤ l.length := by
  simpa [trailingRun] using revRun_le_length norm l.reverse

/-- Dropping a prefix truncates the trailing run to the remaining length. -/
theorem trailingRun_drop (norm : List Char) (l : List String) (m : ℕ) :
    trailingRun norm (l.drop m) = min (trailingRun norm l) (l.length - m) := by
  unfold trailingRun
  rw [List.reverse_drop, revRun_take]

/-- When the chunks immediately preceding the current one already contain a
normalized-equal run of length `loopThreshold`, the loop check fires with
reason `unknown`. -/
theorem checkForLooping_fires (prev : List String) (chunk : String)
    (st : QualityGuardState) (cfg : ResolvedQualityGuardConfig)
    (ctx : FailoverContext)
    (hchunks : st.chunks = prev ++ [chunk])
    (hrun : trailingRun (normalizeChunk chunk) prev ≥ cfg.loopThreshold) :
    checkForLooping st chunk cfg ctx =
      some { reason := FailoverReason.unknown, provider := ctx.provider,
             model := ctx.model } := by
  have hTn : cfg.loopThreshold ≤ prev.length :=
    le_trans hrun (trailingRun_le_length _ _)
  unfold checkForLooping
  dsimp only
  rw [hchunks]
  by_cases hT0 : cfg.loopThreshold = 0
  · rw [hT0]
    simp only [Nat.zero_mul, sliceLast, if_pos rfl]
    rw [if_neg (by omega)]
    rw [if_pos (by omega)]
  · have h2T : cfg.loopThreshold * 2 ≠ 0 := by omega
    have hlen : (prev ++ [chunk]).length = prev.length + 1 := by simp
    have hdrop : (prev ++ [chunk]).drop
        ((prev ++ [chunk]).length - cfg.loopThreshold * 2) =
        prev.drop ((prev.length + 1) - cfg.loopThreshold * 2) ++ [chunk] := by
      rw [hlen, List.drop_append_eq_append_drop]
      have h0 : prev.length + 1 - cfg.loopThreshold * 2 - prev.length = 0 := by
        omega
      rw [h0, List.drop_zero]
    rw [sliceLast, if_neg h2T, hdrop]
    have hguard : ¬ ((prev.drop ((prev.length + 1) - cfg.loopThreshold * 2) ++
        [chunk]).length < cfg.loopThreshold) := by
      simp only [List.length_append, List.length_drop, List.length_singleton]
      omega
    rw [if_neg hguard]
    rw [List.dropLast_concat]
    rw [trailingRun_drop]
    rw [if_pos ?_]
    have h1 := hrun
    omega

/-- C7. When the guard is enabled and the chunk is long enough, an ingest
whose normalized chunk already has `loopThreshold` normalized-equal chunks
immediately before it raises the loop failover with reason `unknown`; and
five consecutive identical 60-character chunks fed to a fresh state under
the default configuration raise that failover by the fifth ingest or
earlier. -/
theorem C7_consecutive_repeat_loop :
    (∀ s chunk config now ctx,
      (resolveQualityGuardConfig config).enabled = true →
      chunk.length ≥ (resolveQualityGuardConfig config).loopMinChunkLength →
      trailingRun (normalizeChunk chunk) s.chunks ≥
        (resolveQualityGuardConfig config).loopThreshold →
      (checkStreamingChunk s chunk config now ctx).2 =
        some { reason := FailoverReason.unknown, provider := ctx.provider,
               model := ctx.model }) ∧
    (ingestAll {} 0 {} (createQualityGuardState 0)
        (List.replicate 5 (String.mk (List.replicate 60 'a')))).2 =
      some { reason := FailoverReason.unknown } := by
  constructor
  · intro s chunk config now ctx hen hlen hrun
    rw [checkStreamingChunk_snd s chunk config now ctx hen hlen]
    exact checkForLooping_fires s.chunks chunk _ _ ctx rfl hrun
  · decide

/-- C7 witness: three identical 30-character chunks already in the state, a
fourth identical ingest raises the loop failover (default configuration). -/
theorem C7_consecutive_repeat_loop_witness :
    (checkStreamingChunk
      { chunks := List.replicate 3 (String.mk (List.replicate 30 'b'))
        totalChars := 90, firstChunkAt := some 0, startedAt := 0 }
      (String.mk (List.replicate 30 'b')) {} 0 {}).2 =
    some { reason := FailoverReason.unknown } :=
  C7_consecutive_repeat_loop.1
    { chunks := List.replicate 3 (String.mk (List.replicate 30 'b'))
      totalChars := 90, firstChunkAt := some 0, startedAt := 0 }
    (String.mk (List.replicate 30 'b')) {} 0 {}
    rfl (by decide) (by decide)

/-- C8 (amended). The repetition-ratio check does not run on every ingest: it
runs only when the chunk meets the minimum length, the recent window holds at
least `loopThreshold` chunks, and the consecutive-repeat check did not fire;
under those gates, the ingest raises `unknown` exactly when the accumulated
text exceeds 500 characters and its repetition ratio exceeds 0.6. -/
theorem C8_repetition_ratio_gated (s : QualityGuardState) (chunk : String)
    (config : QualityGuardConfig) (now : ℚ) (ctx : FailoverContext)
    (hen : (resolveQualityGuardConfig config).enabled = true)
    (hlen : chunk.length ≥ (resolveQualityGuardConfig config).loopMinChunkLength)
    (hwin : ¬ ((sliceLast (s.chunks ++ [chunk])
        ((resolveQualityGuardConfig config).loopThreshold * 2)).length <
      (resolveQualityGuardConfig config).loopThreshold))
    (hrep : ¬ (min (trailingRun (normalizeChunk chunk)
        (sliceLast (s.chunks ++ [chunk])
          ((resolveQualityGuardConfig config).loopThreshold * 2)).dropLast)
        (resolveQualityGuardConfig config).loopThreshold ≥
      (resolveQualityGuardConfig config).loopThreshold - 1)) :
    (checkStreamingChunk s chunk config now ctx).2 =
      if s.totalChars + chunk.length > 500 ∧
          detectRepetitionRatio (String.join (s.chunks ++ [chunk])) > 0.6 then
        some { reason := FailoverReason.unknown, provider := ctx.provider,
               model := ctx.model }
      else none := by
  rw [checkStreamingChunk_snd s chunk config now ctx hen hlen]
  unfold checkForLooping
  dsimp only
  rw [if_neg hwin, if_neg hrep]
  by_cases h5 : s.totalChars + chunk.length > 500
  · rw [if_pos h5]
    by_cases h6 : detectRepetitionRatio (String.join (s.chunks ++ [chunk])) > 0.6
    · rw [if_pos h6, if_pos ⟨h5, h6⟩]
    · rw [if_neg h6, if_neg (by tauto)]
  · rw [if_neg h5, if_neg (by tauto)]

/-- C8 witness: with two long non-repeating-boundary chunks already recorded
(600 characters) and a short third chunk that still meets the minimum length,
the gated ratio check fires: the accumulated 620-character text is over 500
characters and over 60 % covered by its leading 100-character segment. -/
theorem C8_repetition_ratio_gated_witness :
    (checkStreamingChunk
      { chunks := [String.mk (List.replicate 300 'a'),
                   String.mk (List.replicate 299 'a' ++ ['b'])]
        totalChars := 600, firstChunkAt := some 0, startedAt := 0 }
      (String.mk (List.replicate 20 'a')) {} 0 {}).2 =
    some { reason := FailoverReason.unknown } := by
  rw [C8_repetition_ratio_gated
    { chunks := [String.mk (List.replicate 300 'a'),
                 String.mk (List.replicate 299 'a' ++ ['b'])]
      totalChars := 600, firstChunkAt := some 0, startedAt := 0 }
    (String.mk (List.replicate 20 'a')) {} 0 {}
    rfl (by decide) (by decide) (by decide)]
  rw [if_pos ?_]
  constructor
  · decide
  · have htext : String.join
        (([String.mk (List.replicate 300 'a'),
           String.mk (List.replicate 299 'a' ++ ['b'])] : List String) ++
          [String.mk (List.replicate 20 'a')]) =
        String.mk (List.replicate 599 'a' ++ ['b'] ++ List.replicate 20 'a') := by
      decide
    rw [htext]
    have h1 : ¬ ((String.mk (List.replicate 599 'a' ++ ['b'] ++
        List.replicate 20 'a')).length < 100) := by decide
    have hw : min 100 ((String.mk (List.replicate 599 'a' ++ ['b'] ++
        List.replicate 20 'a')).length / 4) = 100 := by decide
    simp only [detectRepetitionRatio, h1, if_false, hw]
    have hocc : countOccAux ((String.mk (List.replicate 599 'a' ++ ['b'] ++
        List.replicate 20 'a')).data.take 100) 100
        ((String.mk (List.replicate 599 'a' ++ ['b'] ++
          List.replicate 20 'a')).data.length + 1)
        (String.mk (List.replicate 599 'a' ++ ['b'] ++
          List.replicate 20 'a')).data = 5 := by decide
    rw [hocc]
    have hlen : (String.mk (List.replicate 599 'a' ++ ['b'] ++
        List.replicate 20 'a')).length = 620 := by decide
    rw [hlen]
    norm_num

/-- C8 counterexample: a single 600-character ingest into a fresh state —
the accumulated text exceeds 500 characters and is 100 % covered by
repetitions of its leading segment, yet no failover is raised, because the
recent window holds fewer than `loopThreshold` chunks and the ratio check is
skipped. So the ratio check does not run "on every ingest once the
accumulated text exceeds 500 characters". -/
theorem C8_counterexample :
    (checkStreamingChunk (createQualityGuardState 0)
      (String.mk (List.replicate 600 'a')) {} 0 {}).2 = none ∧
    (checkStreamingChunk (createQualityGuardState 0)
      (String.mk (List.replicate 600 'a')) {} 0 {}).1.totalChars = 600 ∧
    detectRepetitionRatio (String.join
      (checkStreamingChunk (createQualityGuardState 0)
        (String.mk (List.replicate 600 'a')) {} 0 {}).1.chunks) > 0.6 := by
  refine ⟨by decide, by decide, ?_⟩
  have hch : (checkStreamingChunk (createQualityGuardState 0)
      (String.mk (List.replicate 600 'a')) {} 0 {}).1.chunks =
      [String.mk (List.replicate 600 'a')] := by decide
  rw [hch]
  have hjoin : String.join [String.mk (List.replicate 600 'a')] =
      String.mk (List.replicate 600 'a') := by decide
  rw [hjoin]
  have h1 : ¬ ((String.mk (List.replicate 600 'a')).length < 100) := by decide
  have hw : min 100 ((String.mk (List.replicate 600 'a')).length / 4) = 100 := by
    decide
  simp only [detectRepetitionRatio, h1, if_false, hw]
  have hocc : countOccAux ((String.mk (List.replicate 600 'a')).data.take 100)
      100 ((String.mk (List.replicate 600 'a')).data.length + 1)
      (String.mk (List.replicate 600 'a')).data = 6 := by decide
  rw [hocc]
  have hlen : (String.mk (List.replicate 600 'a')).length = 600 := by decide
  rw [hlen]
  norm_num

/-! ## Smart routing (`src/unnamed/part_003`, first module)

The classifier's pattern sets are JS regexes.  We embed them through a small
pattern language (`Pat`) whose matcher implements the regex constructs the
source uses: literals, character classes (`\s`, `\S`, `\d`, `[\s\S]`, symbol
classes), concatenation, alternation, starred classes (`\s*`, `[\s\S]*`,
and `+` as class-then-star), optional groups, and the word boundary `\b`.
Case-insensitive (`/i`) patterns are matched against the case-folded input
with lowercase literals. -/

/-- JS `\w` (`[A-Za-z0-9_]`). -/
def isWordChar (c : Char) : Bool :=
  ('a' ≤ c ∧ c ≤ 'z') ∨ ('A' ≤ c ∧ c ≤ 'Z') ∨ ('0' ≤ c ∧ c ≤ '9') ∨ c = '_'

/-- The character classes used by the source's regexes. -/
inductive CharCls where
  | wsC
  | nonwsC
  | digitC
  | anyC
  | oneOf (cs : List Char)
  deriving DecidableEq, Repr

/-- Class membership test. -/
def CharCls.test : CharCls → Char → Bool
  | wsC, c => jsWS c
  | nonwsC, c => !jsWS c
  | digitC, c => '0' ≤ c ∧ c ≤ '9'
  | anyC, _ => true
  | oneOf cs, c => cs.contains c

/-- A class is *inky* when every character it accepts is non-whitespace. -/
def CharCls.inky : CharCls → Bool
  | wsC => false
  | nonwsC => true
  | digitC => true
  | anyC => false
  | oneOf cs => cs.all (fun c => !jsWS c)

/-- The pattern language. -/
inductive Pat where
  | eps
  | fail
  | cls (k : CharCls)
  | seq (a b : Pat)
  | alt (a b : Pat)
  | clsStar (k : CharCls)
  | bound
  deriving DecidableEq, Repr

/-- All ways a starred class can consume a prefix of the input; each result
carries the last consumed character (for later word-boundary tests) and the
remaining input. -/
def starRun (k : CharCls) : Option Char → List Char →
    List (Option Char × List Char)
  | prev, [] => [(prev, [])]
  | prev, c :: rest =>
    (prev, c :: rest) :: (if k.test c then starRun k (some c) rest else [])

/-- JS `\b`: exactly one side of the current position is a word character. -/
def isBoundary (prev : Option Char) (s : List Char) : Bool :=
  (match prev with | none => false | some c => isWordChar c) ≠
    (match s with | [] => false | c :: _ => isWordChar c)

/-- All ways a pattern can match a prefix of the input. -/
def Pat.mrun : Pat → Option Char → List Char → List (Option Char × List Char)
  | .eps, prev, s => [(prev, s)]
  | .fail, _, _ => []
  | .cls k, _, s =>
    match s with
    | [] => []
    | c :: rest => if k.test c then [(some c, rest)] else []
  | .seq a b, prev, s => (a.mrun prev s).flatMap (fun pr => b.mrun pr.1 pr.2)
  | .alt a b, prev, s => a.mrun prev s ++ b.mrun prev s
  | .clsStar k, prev, s => starRun k prev s
  | .bound, prev, s => if isBoundary prev s then [(prev, s)] else []

/-- Regex `test`: search for a match starting at any position. -/
def searchAux (p : Pat) : Option Char → List Char → Bool
  | prev, [] => !(p.mrun prev []).isEmpty
  | prev, c :: rest => !(p.mrun prev (c :: rest)).isEmpty || searchAux p (some c) rest

/-- Regex `test` from the start of the input. -/
def Pat.search (p : Pat) (s : List Char) : Bool := searchAux p none s

/-- A pattern *needs ink* when every successful match must consume at least
one non-whitespace character. -/
def Pat.needsInk : Pat → Bool
  | .eps => false
  | .fail => true
  | .cls k => k.inky
  | .seq a b => a.needsInk || b.needsInk
  | .alt a b => a.needsInk && b.needsInk
  | .clsStar _ => false
  | .bound => false

/-- An inky class accepts no whitespace character. -/
theorem CharCls.inky_spec (k : CharCls) (c : Char) (hk : k.inky = true)
    (hc : k.test c = true) : jsWS c = false := by
  cases k with
  | wsC => exact absurd hk (by simp [CharCls.inky])
  | nonwsC => simpa [CharCls.test] using hc
  | digitC =>
    rcases Bool.eq_false_or_eq_true (jsWS c) with hb | hb
    · have hb' : c = ' ' ∨ c = '\t' ∨ c = '\n' ∨ c = '\r' ∨ c = '\x0b' ∨
          c = '\x0c' ∨ c = ' ' ∨ c = '﻿' := by simpa [jsWS] using hb
      rcases hb' with rfl | rfl | rfl | rfl | rfl | rfl | rfl | rfl <;>
        exact absurd hc (by decide)
    · exact hb
  | anyC => exact absurd hk (by simp [CharCls.inky])
  | oneOf cs =>
    have hmem : c ∈ cs := by simpa [CharCls.test] using hc
    have hall : ∀ x ∈ cs, jsWS x = false := by
      simpa [CharCls.inky, List.all_eq_true] using hk
    exact hall c hmem

/-- Every result of `starRun` is a suffix of the input. -/
theorem starRun_suffix (k : CharCls) :
    ∀ prev s pr, pr ∈ starRun k prev s → pr.2 <:+ s := by
  intro prev s
  induction s generalizing prev with
  | nil =>
    intro pr hpr
    simp only [starRun, List.mem_singleton] at hpr
    subst hpr
    exact List.suffix_refl []
  | cons c rest ih =>
    intro pr hpr
    simp only [starRun, List.mem_cons] at hpr
    rcases hpr with rfl | hpr
    · exact List.suffix_refl _
    · by_cases ht : k.test c
      · rw [if_pos ht] at hpr
        exact (ih (some c) pr hpr).trans (List.suffix_cons c rest)
      · rw [if_neg ht] at hpr
        exact absurd hpr (by simp)

/-- Every result of `Pat.mrun` is a suffix of the input. -/
theorem mrun_suffix (p : Pat) :
    ∀ prev s pr, pr ∈ p.mrun prev s → pr.2 <:+ s := by
  induction p with
  | eps =>
    intro prev s pr hpr
    simp only [Pat.mrun, List.mem_singleton] at hpr
    subst hpr
    exact List.suffix_refl s
  | fail => intro prev s pr hpr; exact absurd hpr (by simp [Pat.mrun])
  | cls k =>
    intro prev s pr hpr
    cases s with
    | nil => exact absurd hpr (by simp [Pat.mrun])
    | cons c rest =>
      simp only [Pat.mrun] at hpr
      by_cases ht : k.test c
      · rw [if_pos ht] at hpr
        simp only [List.mem_singleton] at hpr
        subst hpr
        exact List.suffix_cons c rest
      · rw [if_neg ht] at hpr
        exact absurd hpr (by simp)
  | seq a b iha ihb =>
    intro prev s pr hpr
    simp only [Pat.mrun, List.mem_flatMap] at hpr
    obtain ⟨q, hq, hpr⟩ := hpr
    exact (ihb q.1 q.2 pr hpr).trans (iha prev s q hq)
  | alt a b iha ihb =>
    intro prev s pr hpr
    simp only [Pat.mrun, List.mem_append] at hpr
    rcases hpr with hpr | hpr
    · exact iha prev s pr hpr
    · exact ihb prev s pr hpr
  | clsStar k => intro prev s pr hpr; exact starRun_suffix k prev s pr hpr
  | bound =>
    intro prev s pr hpr
    simp only [Pat.mrun] at hpr
    by_cases hb : isBoundary prev s
    · rw [if_pos hb] at hpr
      simp only [List.mem_singleton] at hpr
      subst hpr
      exact List.suffix_refl s
    · rw [if_neg hb] at hpr
      exact absurd hpr (by simp)

/-- A pattern that needs ink cannot match any prefix of whitespace-only
input. -/
theorem mrun_needsInk_nil (p : Pat) (hp : p.needsInk = true) :
    ∀ prev s, (∀ c ∈ s, jsWS c = true) → p.mrun prev s = [] := by
  induction p with
  | eps => exact absurd hp (by simp [Pat.needsInk])
  | fail => intro prev s _; rfl
  | cls k =>
    intro prev s hws
    cases s with
    | nil => rfl
    | cons c rest =>
      have hk : k.inky = true := by simpa [Pat.needsInk] using hp
      by_cases ht : k.test c
      · have := CharCls.inky_spec k c hk ht
        rw [hws c (List.mem_cons_self c rest)] at this
        exact absurd this (by simp)
      · simp [Pat.mrun, ht]
  | seq a b iha ihb =>
    intro prev s hws
    simp only [Pat.needsInk, Bool.or_eq_true] at hp
    rcases hp with hp | hp
    · simp [Pat.mrun, iha hp prev s hws]
    · simp only [Pat.mrun]
      rw [List.flatMap_eq_nil_iff]
      intro q hq
      have hsub := (mrun_suffix a prev s q hq).subset
      exact ihb hp q.1 q.2 (fun c hc => hws c (hsub hc))
  | alt a b iha ihb =>
    intro prev s hws
    simp only [Pat.needsInk, Bool.and_eq_true] at hp
    simp [Pat.mrun, iha hp.1 prev s hws, ihb hp.2 prev s hws]
  | clsStar k => exact absurd hp (by simp [Pat.needsInk])
  | bound => exact absurd hp (by simp [Pat.needsInk])

/-- A pattern that needs ink fails to match anywhere in whitespace-only
input. -/
theorem search_needsInk (p : Pat) (hp : p.needsInk = true) :
    ∀ prev s, (∀ c ∈ s, jsWS c = true) → searchAux p prev s = false := by
  intro prev s
  induction s generalizing prev with
  | nil =>
    intro hws
    simp [searchAux, mrun_needsInk_nil p hp prev [] (by simp)]
  | cons c rest ih =>
    intro hws
    simp only [searchAux, Bool.or_eq_false_iff]
    constructor
    · simp [mrun_needsInk_nil p hp prev (c :: rest) hws]
    · exact ih (some c) (fun x hx => hws x (List.mem_cons_of_mem c hx))

/-- Literal string pattern (a sequence of single-character classes). -/
def strL (s : String) : Pat :=
  s.data.foldr (fun c p => Pat.seq (Pat.cls (CharCls.oneOf [c])) p) Pat.eps

/-- Alternation of a list of patterns. -/
def altL (ps : List Pat) : Pat := ps.foldr Pat.alt Pat.fail

/-- Single literal character. -/
def chr (c : Char) : Pat := Pat.cls (CharCls.oneOf [c])

/-- `x+` for a character class (`x` then `x*`). -/
def plus1 (k : CharCls) : Pat := Pat.seq (Pat.cls k) (Pat.clsStar k)

/-- `(?:p)?`. -/
def optP (p : Pat) : Pat := Pat.alt p Pat.eps

/-- `/\b(?:w1|w2|...)\b/`. -/
def wordsP (ws : List String) : Pat :=
  Pat.seq Pat.bound (Pat.seq (altL (ws.map strL)) Pat.bound)

/-- A classifier detector: a pattern plus its `/i` flag (case-insensitive
patterns are matched against the case-folded input, with lowercase
literals). -/
structure Detector where
  pat : Pat
  caseFold : Bool

/-- `pattern.test(prompt)`. -/
def Detector.matchesStr (d : Detector) (s : String) : Bool :=
  if d.caseFold then d.pat.search (lowerList s.data) else d.pat.search s.data

/-- `CODE_PATTERNS`. -/
def CODE_PATTERNS : List Detector :=
  [⟨wordsP ["function", "class", "const", "let", "var", "import", "export",
      "return", "async", "await"], true⟩,
   ⟨wordsP ["implement", "refactor", "debug", "bugfix", "compile", "build",
      "deploy", "lint"], true⟩,
   ⟨wordsP ["api", "endpoint", "database", "schema", "migration", "query",
      "sql"], true⟩,
   ⟨wordsP ["component", "hook", "state", "props", "render", "dom", "css",
      "html"], true⟩,
   ⟨wordsP ["test", "spec", "assert", "mock", "stub", "fixture"], true⟩,
   ⟨Pat.seq Pat.bound (Pat.seq (altL [strL "git", strL "commit", strL "merge",
      strL "branch",
      Pat.seq (strL "pull") (Pat.seq (Pat.clsStar CharCls.wsC)
        (strL "request")),
      strL "pr"]) Pat.bound), true⟩,
   ⟨wordsP ["npm", "pnpm", "yarn", "pip", "cargo", "docker", "kubernetes"],
      true⟩,
   ⟨Pat.seq (chr '.') (Pat.seq Pat.bound (Pat.seq
      (altL ((["ts", "tsx", "js", "jsx", "py", "rs", "go", "java", "cpp",
        "c", "rb", "swift", "kt"]).map strL)) Pat.bound)), false⟩,
   ⟨Pat.seq (strL "```") (Pat.seq (Pat.clsStar CharCls.anyC) (strL "```")),
      false⟩,
   ⟨Pat.seq (altL [strL "error", strL "exception", strL "traceback",
      Pat.seq (strL "stack") (Pat.seq (Pat.clsStar CharCls.wsC)
        (strL "trace"))])
      (Pat.seq (Pat.clsStar CharCls.wsC) (chr ':')), true⟩,
   ⟨Pat.seq Pat.bound (Pat.seq (strL "at") (Pat.seq (plus1 CharCls.wsC)
      (Pat.seq (plus1 CharCls.nonwsC) (Pat.seq (Pat.clsStar CharCls.wsC)
      (Pat.seq (chr '(') (Pat.seq (plus1 CharCls.nonwsC) (Pat.seq (chr ':')
      (Pat.seq (plus1 CharCls.digitC) (Pat.seq (chr ':')
      (Pat.seq (plus1 CharCls.digitC) (chr ')'))))))))))), false⟩]

/-- `REASONING_PATTERNS`. -/
def REASONING_PATTERNS : List Detector :=
  [⟨Pat.seq Pat.bound (Pat.seq (strL "explain") (Pat.seq (plus1 CharCls.wsC)
      (Pat.seq (altL [strL "why", strL "how", strL "what"]) Pat.bound))),
      true⟩,
   ⟨wordsP ["analyze", "analyse", "evaluate", "compare", "contrast",
      "assess"], true⟩,
   ⟨Pat.seq Pat.bound (Pat.seq (altL
      [Pat.seq (strL "think") (Pat.seq (plus1 CharCls.wsC) (strL "through")),
       Pat.seq (strL "step") (Pat.seq (plus1 CharCls.wsC)
         (Pat.seq (strL "by") (Pat.seq (plus1 CharCls.wsC) (strL "step")))),
       strL "reasoning", strL "logic"]) Pat.bound), true⟩,
   ⟨Pat.seq Pat.bound (Pat.seq (altL
      [Pat.seq (strL "pro") (Pat.seq (optP (chr 's'))
         (Pat.seq (plus1 CharCls.wsC) (Pat.seq (altL [strL "and", strL "&"])
           (Pat.seq (plus1 CharCls.wsC)
             (Pat.seq (strL "con") (optP (chr 's'))))))),
       Pat.seq (strL "trade") (Pat.seq (optP (chr '-'))
         (Pat.seq (strL "off") (optP (chr 's')))),
       Pat.seq (strL "advantage") (Pat.seq (optP (chr 's'))
         (Pat.seq (plus1 CharCls.wsC) (Pat.seq (altL [strL "and", strL "&"])
           (Pat.seq (plus1 CharCls.wsC)
             (Pat.seq (strL "disadvantage") (optP (chr 's')))))))])
      Pat.bound), true⟩,
   ⟨wordsP ["calculate", "equation", "formula", "theorem", "proof",
      "derive"], true⟩,
   ⟨wordsP ["cause", "effect", "consequence", "implication", "hypothesis"],
      true⟩,
   ⟨Pat.cls (CharCls.oneOf ['∑', '∏', '∫', '√', '∂', '∇', '≈', '≠', '≤',
      '≥', '±', '×', '÷']), false⟩,
   ⟨wordsP ["sigma", "integral", "derivative", "matrix", "vector"], true⟩]

/-- `CREATIVE_PATTERNS`. -/
def CREATIVE_PATTERNS : List Detector :=
  [⟨Pat.seq Pat.bound (Pat.seq (strL "write") (Pat.seq (plus1 CharCls.wsC)
      (Pat.seq (optP (Pat.seq (strL "a") (plus1 CharCls.wsC)))
      (Pat.seq (altL (["story", "poem", "haiku", "song", "lyrics", "script",
        "essay", "letter", "blog"].map strL)) Pat.bound)))), true⟩,
   ⟨wordsP ["creative", "brainstorm", "imagine", "fiction", "narrative",
      "character"], true⟩,
   ⟨wordsP ["tone", "voice", "style", "mood", "metaphor", "analogy"], true⟩,
   ⟨Pat.seq Pat.bound (Pat.seq (altL [strL "rewrite", strL "paraphrase",
      strL "rephrase"]) (Pat.seq (plus1 CharCls.wsC)
      (Pat.seq (altL [strL "this", strL "the", strL "in"]) Pat.bound))),
      true⟩,
   ⟨wordsP ["copywriting", "tagline", "slogan", "headline", "pitch"], true⟩]

/-- `TRANSLATION_PATTERNS`. -/
def TRANSLATION_PATTERNS : List Detector :=
  [⟨wordsP ["translate", "translation", "translator"], true⟩,
   ⟨Pat.seq Pat.bound (Pat.seq (altL [strL "in", strL "to", strL "into"])
      (Pat.seq (plus1 CharCls.wsC) (Pat.seq (altL
        (["polish", "french", "german", "spanish", "italian", "portuguese",
          "chinese", "japanese", "korean", "arabic", "russian", "hindi",
          "turkish", "dutch", "swedish", "czech", "slovak", "hungarian",
          "romanian", "greek", "thai", "vietnamese", "indonesian", "malay",
          "filipino", "hebrew", "farsi", "persian", "ukrainian", "bengali",
          "tamil", "telugu", "marathi", "gujarati", "kannada", "malayalam",
          "urdu", "swahili"].map strL)) Pat.bound))), true⟩,
   ⟨Pat.seq Pat.bound (Pat.seq (altL
      [Pat.seq (strL "po") (Pat.seq (plus1 CharCls.wsC) (strL "polsku")),
       Pat.seq (strL "na") (Pat.seq (plus1 CharCls.wsC) (strL "polski")),
       Pat.seq (strL "en") (Pat.seq (plus1 CharCls.wsC)
         (Pat.seq (strL "fran") (Pat.seq (Pat.cls (CharCls.oneOf ['c', 'ç']))
           (strL "ais")))),
       Pat.seq (strL "auf") (Pat.seq (plus1 CharCls.wsC) (strL "deutsch")),
       Pat.seq (strL "en") (Pat.seq (plus1 CharCls.wsC)
         (Pat.seq (strL "espa") (Pat.seq (Pat.cls (CharCls.oneOf ['n', 'ñ']))
           (strL "ol"))))]) Pat.bound), true⟩,
   ⟨wordsP ["localize", "localization", "i18n", "l10n"], true⟩]

/-- Per-category score: the count of matching detectors. -/
def countMatches (pats : List Detector) (prompt : String) : ℕ :=
  pats.countP (fun d => d.matchesStr prompt)

/-- `TaskType`. -/
inductive TaskType where
  | code
  | reasoning
  | creative
  | translation
  | general
  deriving DecidableEq, Repr

/-- The `scores` record as iterated by `Object.entries` (declaration
order, `general` fixed at 0). -/
def scoreEntries (p : String) : List (TaskType × ℕ) :=
  [(TaskType.code, countMatches CODE_PATTERNS p),
   (TaskType.reasoning, countMatches REASONING_PATTERNS p),
   (TaskType.creative, countMatches CREATIVE_PATTERNS p),
   (TaskType.translation, countMatches TRANSLATION_PATTERNS p),
   (TaskType.general, 0)]

/-- `classifyTaskType`: `general` for absent or empty input, otherwise the
best-scoring category under the strictly-greater update loop (which skips
`general`). -/
def classifyTaskType (prompt : Option String) : TaskType :=
  match prompt with
  | none => TaskType.general
  | some p =>
    if p = "" then TaskType.general
    else
      ((scoreEntries p).foldl
        (fun best ts =>
          if ts.1 = TaskType.general then best
          else if ts.2 > best.2 then ts else best)
        (TaskType.general, 0)).1

/-- `lowerChar` maps whitespace to whitespace. -/
theorem jsWS_lowerChar (c : Char) (h : jsWS c = true) :
    jsWS (lowerChar c) = true := by
  have hb' : c = ' ' ∨ c = '\t' ∨ c = '\n' ∨ c = '\r' ∨ c = '\x0b' ∨
      c = '\x0c' ∨ c = ' ' ∨ c = '﻿' := by simpa [jsWS] using h
  rcases hb' with rfl | rfl | rfl | rfl | rfl | rfl | rfl | rfl <;> decide

/-- An ink-needing detector never matches whitespace-only input. -/
theorem detector_ws (d : Detector) (hink : d.pat.needsInk = true) (s : String)
    (hws : ∀ c ∈ s.data, jsWS c = true) : d.matchesStr s = false := by
  unfold Detector.matchesStr
  split_ifs
  · refine search_needsInk d.pat hink none (lowerList s.data) ?_
    intro c hc
    simp only [lowerList, List.mem_map] at hc
    obtain ⟨x, hx, rfl⟩ := hc
    exact jsWS_lowerChar x (hws x hx)
  · exact search_needsInk d.pat hink none s.data hws

/-- Whitespace-only input scores 0 against an ink-needing pattern set. -/
theorem countMatches_ws (pats : List Detector)
    (hink : ∀ d ∈ pats, d.pat.needsInk = true) (s : String)
    (hws : ∀ c ∈ s.data, jsWS c = true) : countMatches pats s = 0 := by
  unfold countMatches
  rw [List.countP_eq_zero]
  intro d hd
  simp [detector_ws d (hink d hd) s hws]

/-- Every code detector needs ink. -/
theorem code_patterns_ink : ∀ d ∈ CODE_PATTERNS, d.pat.needsInk = true := by
  decide

/-- Every reasoning detector needs ink. -/
theorem reasoning_patterns_ink :
    ∀ d ∈ REASONING_PATTERNS, d.pat.needsInk = true := by decide

/-- Every creative detector needs ink. -/
theorem creative_patterns_ink :
    ∀ d ∈ CREATIVE_PATTERNS, d.pat.needsInk = true := by decide

/-- Every translation detector needs ink. -/
theorem translation_patterns_ink :
    ∀ d ∈ TRANSLATION_PATTERNS, d.pat.needsInk = true := by decide

/-- The highest of the four non-general scores (spec side). -/
def specBestScore (p : String) : ℕ :=
  max (countMatches CODE_PATTERNS p)
    (max (countMatches REASONING_PATTERNS p)
      (max (countMatches CREATIVE_PATTERNS p)
        (countMatches TRANSLATION_PATTERNS p)))

/-- The claim's description of the winner, stated from the spec's words: the
category with the strictly highest score in the declaration order
`code, reasoning, creative, translation` (ties to the earlier category), and
`general` when all four scores are 0. -/
def specClassify (p : String) : TaskType :=
  if specBestScore p = 0 then TaskType.general
  else if countMatches CODE_PATTERNS p = specBestScore p then TaskType.code
  else if countMatches REASONING_PATTERNS p = specBestScore p then
    TaskType.reasoning
  else if countMatches CREATIVE_PATTERNS p = specBestScore p then
    TaskType.creative
  else TaskType.translation

set_option maxHeartbeats 1000000 in
/-- The strictly-greater update loop computes the first-attained maximum. -/
theorem pickBest_spec (a b c d : ℕ) :
    (([(TaskType.code, a), (TaskType.reasoning, b), (TaskType.creative, c),
       (TaskType.translation, d), (TaskType.general, 0)]).foldl
        (fun best ts =>
          if ts.1 = TaskType.general then best
          else if ts.2 > best.2 then ts else best)
        (TaskType.general, 0)).1 =
      if max a (max b (max c d)) = 0 then TaskType.general
      else if a = max a (max b (max c d)) then TaskType.code
      else if b = max a (max b (max c d)) then TaskType.reasoning
      else if c = max a (max b (max c d)) then TaskType.creative
      else TaskType.translation := by
  simp only [List.foldl_cons, List.foldl_nil]
  have h1 : a ≤ max a (max b (max c d)) := le_max_left _ _
  have h2 : b ≤ max a (max b (max c d)) :=
    le_trans (le_max_left _ _) (le_max_right _ _)
  have h3 : c ≤ max a (max b (max c d)) :=
    le_trans (le_trans (le_max_left _ _) (le_max_right _ _)) (le_max_right _ _)
  have h4 : d ≤ max a (max b (max c d)) :=
    le_trans (le_trans (le_max_right _ _) (le_max_right _ _)) (le_max_right _ _)
  have h5 : max a (max b (max c d)) = a ∨ max a (max b (max c d)) = b ∨
      max a (max b (max c d)) = c ∨ max a (max b (max c d)) = d := by
    rcases max_choice a (max b (max c d)) with h | h
    · exact Or.inl h
    · rcases max_choice b (max c d) with h' | h'
      · exact Or.inr (Or.inl (h.trans h'))
      · rcases max_choice c d with h'' | h''
        · exact Or.inr (Or.inr (Or.inl ((h.trans h').trans h'')))
        · exact Or.inr (Or.inr (Or.inr ((h.trans h').trans h'')))
  set M := max a (max b (max c d))
  clear_value M
  norm_num
  rcases h5 with rfl | rfl | rfl | rfl <;> split_ifs <;> dsimp only at * <;>
    first | rfl | omega

/-- On a non-empty prompt the classifier agrees with the spec-side argmax. -/
theorem classify_eq_specClassify (s : String) :
    classifyTaskType (some s) = specClassify s := by
  have hred : classifyTaskType (some s) =
      if s = "" then TaskType.general
      else
        ((scoreEntries s).foldl
          (fun best ts =>
            if ts.1 = TaskType.general then best
            else if ts.2 > best.2 then ts else best)
          (TaskType.general, 0)).1 := rfl
  by_cases hs : s = ""
  · subst hs
    have h0 : ∀ pats, (∀ d ∈ pats, d.pat.needsInk = true) →
        countMatches pats "" = 0 := fun pats h =>
      countMatches_ws pats h "" (by intro c hc; simp [String.data] at hc)
    have hc0 := h0 CODE_PATTERNS code_patterns_ink
    have hr0 := h0 REASONING_PATTERNS reasoning_patterns_ink
    have hcr0 := h0 CREATIVE_PATTERNS creative_patterns_ink
    have ht0 := h0 TRANSLATION_PATTERNS translation_patterns_ink
    rw [hred, if_pos rfl]
    unfold specClassify specBestScore
    rw [hc0, hr0, hcr0, ht0]
    rfl
  · rw [hred, if_neg hs]
    unfold scoreEntries
    rw [pickBest_spec]
    unfold specClassify specBestScore
    rfl

/-- C2. The classifier is total and default-producing: absent, empty and
whitespace-only prompts yield `general`; otherwise the result is the
spec-side argmax over the four detector-count scores, in declaration order
with strict-improvement tie-breaking (a score-0 category never wins; all
zeros yield `general`). -/
theorem C2_classifier :
    classifyTaskType none = TaskType.general ∧
    (∀ s : String, (∀ c ∈ s.data, jsWS c = true) →
      classifyTaskType (some s) = TaskType.general) ∧
    (∀ s : String, classifyTaskType (some s) = specClassify s) := by
  refine ⟨rfl, ?_, classify_eq_specClassify⟩
  intro s hws
  rw [classify_eq_specClassify s]
  have hc0 := countMatches_ws CODE_PATTERNS code_patterns_ink s hws
  have hr0 := countMatches_ws REASONING_PATTERNS reasoning_patterns_ink s hws
  have hcr0 := countMatches_ws CREATIVE_PATTERNS creative_patterns_ink s hws
  have ht0 := countMatches_ws TRANSLATION_PATTERNS translation_patterns_ink
    s hws
  simp [specClassify, specBestScore, hc0, hr0, hcr0, ht0]

/-- C2 witness: a whitespace-only prompt classifies as `general`. -/
theorem C2_classifier_witness :
    classifyTaskType (some "   \n\t  ") = TaskType.general :=
  C2_classifier.2.1 "   \n\t  " (by decide)

/-- `DEFAULT_ROUTING_RULES`. -/
def DEFAULT_ROUTING_RULES : TaskType → List String
  | TaskType.code => ["codex", "deepseek", "qwen", "coder"]
  | TaskType.reasoning => ["deepseek", "codex", "claude", "r1"]
  | TaskType.creative => ["claude", "gemini", "llama", "opus"]
  | TaskType.translation => ["gemini", "qwen", "deepseek", "glm"]
  | TaskType.general => []

/-- `SmartRoutingConfig` (both fields optional; `rules` is a partial map). -/
structure SmartRoutingConfig where
  enabled : Option Bool := none
  rules : Option (TaskType → Option (List String)) := none

/-- The slice of `OpenClawConfig` the router reads
(`cfg?.agents?.defaults?.smartRouting`, collapsed to one optional field). -/
structure OpenClawConfig where
  smartRouting : Option SmartRoutingConfig := none

/-- `resolveSmartRoutingConfig`: the raw config object, or `{enabled: true}`
when absent. -/
def resolveSmartRoutingConfig (cfg : Option OpenClawConfig) :
    SmartRoutingConfig :=
  match cfg.bind (fun c => c.smartRouting) with
  | none => { enabled := some true }
  | some raw => raw

/-- `rules[taskType] ?? DEFAULT_ROUTING_RULES[taskType] ?? []` (the final
`?? []` is dead because the default table is total). -/
def resolvedFragments (routingCfg : SmartRoutingConfig) (t : TaskType) :
    List String :=
  match routingCfg.rules with
  | none => DEFAULT_ROUTING_RULES t
  | some r => (r t).getD (DEFAULT_ROUTING_RULES t)

/-- `candidateKey`: lowercase `"provider/model"`. -/
def candidateKey (c : ModelCandidate) : List Char :=
  lowerList (c.provider ++ "/" ++ c.model).data

/-- JS `String.prototype.includes`: `needle` occurs contiguously in the
haystack. -/
def containsList (needle : List Char) : List Char → Bool
  | [] => needle.isPrefixOf []
  | c :: t => needle.isPrefixOf (c :: t) || containsList needle t

/-- The scan of `matchAffinity`: index of the first fragment contained in the
key. -/
def matchAffinityAux (key : List Char) : ℕ → List String → Option ℕ
  | _, [] => none
  | i, f :: fs =>
    if containsList (lowerList f.data) key then some i
    else matchAffinityAux key (i + 1) fs

/-- `matchAffinity` (`-1` modelled as `none`). -/
def matchAffinity (c : ModelCandidate) (fragments : List String) : Option ℕ :=
  matchAffinityAux (candidateKey c) 0 fragments

/-- One scored candidate of `applySmartRouting` (`Infinity` is `⊤`). -/
structure ScoredCandidate where
  candidate : ModelCandidate
  affinityIndex : WithTop ℕ
  originalIndex : ℕ

/-- `candidates.map((candidate, originalIndex) => ...)`. -/
def scoreCandidatesAux (fragments : List String) :
    ℕ → List ModelCandidate → List ScoredCandidate
  | _, [] => []
  | i, c :: cs =>
    { candidate := c
      affinityIndex :=
        match matchAffinity c fragments with
        | some k => (k : WithTop ℕ)
        | none => ⊤
      originalIndex := i } :: scoreCandidatesAux fragments (i + 1) cs

/-- The sort comparator: affinity index first, original position for ties
(`Infinity - Infinity` compares equal, falling through to positions). -/
def scoredLE (x y : ScoredCandidate) : Prop :=
  x.affinityIndex < y.affinityIndex ∨
    (x.affinityIndex = y.affinityIndex ∧ x.originalIndex ≤ y.originalIndex)

instance : DecidableRel scoredLE := fun _x _y =>
  inferInstanceAs (Decidable (_ ∨ _))

instance : IsTotal ScoredCandidate scoredLE := ⟨by
  intro x y
  rcases lt_trichotomy x.affinityIndex y.affinityIndex with h | h | h
  · exact Or.inl (Or.inl h)
  · rcases le_total x.originalIndex y.originalIndex with h2 | h2
    · exact Or.inl (Or.inr ⟨h, h2⟩)
    · exact Or.inr (Or.inr ⟨h.symm, h2⟩)
  · exact Or.inr (Or.inl h)⟩

instance : IsTrans ScoredCandidate scoredLE := ⟨by
  intro x y z hxy hyz
  rcases hxy with h1 | ⟨h1, h1'⟩ <;> rcases hyz with h2 | ⟨h2, h2'⟩
  · exact Or.inl (lt_trans h1 h2)
  · exact Or.inl (h2 ▸ h1)
  · exact Or.inl (h1 ▸ h2)
  · exact Or.inr ⟨h1.trans h2, le_trans h1' h2'⟩⟩

/-- `applySmartRouting`: no-op for absent/empty prompts, short candidate
lists, disabled routing, `general` tasks or empty fragment lists; otherwise
sorts the scored candidates with the comparator (a consistent total order,
so the ECMAScript sort result is the unique sorted permutation, realised
here by insertion sort) and strips the scores. -/
def applySmartRouting (candidates : List ModelCandidate)
    (prompt : Option String) (cfg : Option OpenClawConfig) :
    List ModelCandidate :=
  if prompt = none ∨ prompt = some "" ∨ candidates.length ≤ 1 then candidates
  else
    let routingCfg := resolveSmartRoutingConfig cfg
    if routingCfg.enabled = some false then candidates
    else
      let taskType := classifyTaskType prompt
      if taskType = TaskType.general then candidates
      else
        let fragments := resolvedFragments routingCfg taskType
        if fragments = [] then candidates
        else
          (List.insertionSort scoredLE
            (scoreCandidatesAux fragments 0 candidates)).map
            ScoredCandidate.candidate

/-- Stripping the scores recovers the candidates in order. -/
theorem scoreCandidatesAux_map (fragments : List String) :
    ∀ (i : ℕ) (cs : List ModelCandidate),
      (scoreCandidatesAux fragments i cs).map ScoredCandidate.candidate =
        cs := by
  intro i cs
  induction cs generalizing i with
  | nil => rfl
  | cons c t ih => simp [scoreCandidatesAux, ih]

/-- C3. `applySmartRouting` is a no-op for fewer than two candidates,
disabled routing, `general` tasks, and empty fragment lists; in the main
case the output is the scored candidates — (first-matching-fragment index
with no-match as `⊤`, original position) — rearranged into an order sorted
by that lexicographic key, with the scores stripped. -/
theorem C3_affinity_routing :
    (∀ cs prompt cfg, cs.length ≤ 1 → applySmartRouting cs prompt cfg = cs) ∧
    (∀ cs prompt cfg, (resolveSmartRoutingConfig cfg).enabled = some false →
      applySmartRouting cs prompt cfg = cs) ∧
    (∀ cs prompt cfg, classifyTaskType prompt = TaskType.general →
      applySmartRouting cs prompt cfg = cs) ∧
    (∀ cs prompt cfg,
      resolvedFragments (resolveSmartRoutingConfig cfg)
        (classifyTaskType prompt) = [] →
      applySmartRouting cs prompt cfg = cs) ∧
    (∀ cs (p : String) cfg, p ≠ "" → 2 ≤ cs.length →
      (resolveSmartRoutingConfig cfg).enabled ≠ some false →
      classifyTaskType (some p) ≠ TaskType.general →
      resolvedFragments (resolveSmartRoutingConfig cfg)
        (classifyTaskType (some p)) ≠ [] →
      ∃ l : List ScoredCandidate,
        (scoreCandidatesAux
          (resolvedFragments (resolveSmartRoutingConfig cfg)
            (classifyTaskType (some p))) 0 cs).Perm l ∧
        l.Pairwise scoredLE ∧
        applySmartRouting cs (some p) cfg = l.map ScoredCandidate.candidate) := by
  refine ⟨?_, ?_, ?_, ?_, ?_⟩
  · intro cs prompt cfg hlen
    unfold applySmartRouting
    rw [if_pos (Or.inr (Or.inr hlen))]
  · intro cs prompt cfg hdis
    unfold applySmartRouting
    by_cases h1 : prompt = none ∨ prompt = some "" ∨ cs.length ≤ 1
    · rw [if_pos h1]
    · rw [if_neg h1]
      dsimp only
      rw [if_pos hdis]
  · intro cs prompt cfg hgen
    unfold applySmartRouting
    by_cases h1 : prompt = none ∨ prompt = some "" ∨ cs.length ≤ 1
    · rw [if_pos h1]
    · rw [if_neg h1]
      dsimp only
      by_cases h2 : (resolveSmartRoutingConfig cfg).enabled = some false
      · rw [if_pos h2]
      · rw [if_neg h2, if_pos hgen]
  · intro cs prompt cfg hfrag
    unfold applySmartRouting
    by_cases h1 : prompt = none ∨ prompt = some "" ∨ cs.length ≤ 1
    · rw [if_pos h1]
    · rw [if_neg h1]
      dsimp only
      by_cases h2 : (resolveSmartRoutingConfig cfg).enabled = some false
      · rw [if_pos h2]
      · rw [if_neg h2]
        by_cases h3 : classifyTaskType prompt = TaskType.general
        · rw [if_pos h3]
        · rw [if_neg h3, if_pos hfrag]
  · intro cs p cfg hp hlen hen hgen hfrag
    refine ⟨List.insertionSort scoredLE
      (scoreCandidatesAux
        (resolvedFragments (resolveSmartRoutingConfig cfg)
          (classifyTaskType (some p))) 0 cs),
      (List.perm_insertionSort scoredLE _).symm,
      List.sorted_insertionSort scoredLE _, ?_⟩
    unfold applySmartRouting
    rw [if_neg ?_]
    · dsimp only
      rw [if_neg hen, if_neg hgen, if_neg hfrag]
    · push_neg
      refine ⟨by simp, ?_, by omega⟩
      intro h
      exact hp (by simpa using h)

/-- C3 witness: with the default rules, the prompt `"translate this to
polish"` (task `translation`) promotes the `gemini` candidate over a
non-matching one. -/
theorem C3_affinity_routing_witness :
    ∃ l : List ScoredCandidate,
      (scoreCandidatesAux
        (resolvedFragments (resolveSmartRoutingConfig none)
          (classifyTaskType (some "translate this to polish"))) 0
        [⟨"alpha", "x"⟩, ⟨"beta", "gemini"⟩]).Perm l ∧
      l.Pairwise scoredLE ∧
      applySmartRouting [⟨"alpha", "x"⟩, ⟨"beta", "gemini"⟩]
        (some "translate this to polish") none =
        l.map ScoredCandidate.candidate :=
  C3_affinity_routing.2.2.2.2 [⟨"alpha", "x"⟩, ⟨"beta", "gemini"⟩]
    "translate this to polish" none (by decide) (by decide) (by decide)
    (by decide) (by decide)

/-- C1. Both reordering passes return a permutation of their input: same
length, no candidate dropped or duplicated. -/
theorem C1_permutation :
    (∀ cs prompt cfg, (applySmartRouting cs prompt cfg).Perm cs ∧
      (applySmartRouting cs prompt cfg).length = cs.length) ∧
    (∀ cs snap, (filterByBudget cs snap).Perm cs ∧
      (filterByBudget cs snap).length = cs.length) := by
  have hsm : ∀ cs prompt cfg, (applySmartRouting cs prompt cfg).Perm cs := by
    intro cs prompt cfg
    unfold applySmartRouting
    dsimp only
    split_ifs
    · exact List.Perm.refl cs
    · exact List.Perm.refl cs
    · exact List.Perm.refl cs
    · exact List.Perm.refl cs
    · have hperm := (List.perm_insertionSort scoredLE
        (scoreCandidatesAux
          (resolvedFragments (resolveSmartRoutingConfig cfg)
            (classifyTaskType prompt)) 0 cs)).map ScoredCandidate.candidate
      rw [scoreCandidatesAux_map] at hperm
      exact hperm
  have hfb : ∀ cs snap, (filterByBudget cs snap).Perm cs := by
    intro cs snap
    match snap with
    | none => exact List.Perm.refl cs
    | some s =>
      by_cases hlen : cs.length ≤ 1
      · simp only [filterByBudget]
        rw [if_pos hlen]
      · simp only [filterByBudget]
        rw [if_neg hlen]
        rw [budgetPush_foldl]
        simp only [List.nil_append]
        exact filter_three_perm (fun c => budgetBucket c s) cs
          (fun x _ => budgetBucket_le_two x s)
  exact ⟨fun cs p cfg => ⟨hsm cs p cfg, (hsm cs p cfg).length_eq⟩,
    fun cs snap => ⟨hfb cs snap, (hfb cs snap).length_eq⟩⟩

end OpenClaw
